import Mathlib

/-!
Verification of the djb_hash library: a family of streaming hash accumulators
derived from Daniel J. Bernstein's multiplicative hash designs.

Each Rust struct holds a single fixed-width unsigned integer `hash`.  We embed
the machine integers as `Nat` with explicit reduction modulo `2^64` or `2^32`
wherever the Rust code's wrapping arithmetic or shifts can overflow.  Input
bytes (`u8`) are embedded as `Fin 256`.
-/

namespace DjbHash

/-- `2^64`, the modulus of the 64-bit accumulators. -/
def W64 : Nat := 2 ^ 64

/-- `2^32`, the modulus of the 32-bit accumulators. -/
def W32 : Nat := 2 ^ 32

/-- A `u8` input byte. -/
abbrev Byte := Fin 256

/-- `src/x33a.rs`: 64-bit multiplicative-additive hasher, `state : u64`. -/
structure X33a where
  hash : Nat

/-- `X33a::new`: accumulator seeded with 5381. -/
def X33a.new : X33a := ⟨5381⟩

/-- `X33a::new_with_salt`: accumulator seeded with a caller-supplied `u64`. -/
def X33a.new_with_salt (s : Nat) : X33a := ⟨s⟩

/-- One iteration of the loop body of `X33a::write`:
`self.hash = (self.hash << 5).wrapping_add(self.hash).wrapping_add(*byte as u64)`. -/
def X33a.writeByte (x : X33a) (b : Byte) : X33a :=
  ⟨(((x.hash <<< 5) % W64 + x.hash) % W64 + b.val) % W64⟩

/-- `X33a::write`: folds the loop body over the byte slice in order. -/
def X33a.write (x : X33a) (bytes : List Byte) : X33a :=
  bytes.foldl X33a.writeByte x

/-- `X33a::finish` (the `Hasher` impl): returns the current state. -/
def X33a.finish (x : X33a) : Nat := x.hash

/-- `src/djbx33a.rs`: 64-bit multiplicative-additive hasher with only the
default-seed constructor, `state : u64`. -/
structure Djbx33a where
  hash : Nat

/-- `Djbx33a::new`: the only constructor; accumulator seeded with 5381. -/
def Djbx33a.new : Djbx33a := ⟨5381⟩

/-- One iteration of the loop body of `Djbx33a::write`:
`self.hash = (self.hash << 5).wrapping_add(self.hash).wrapping_add(*byte as u64)`. -/
def Djbx33a.writeByte (x : Djbx33a) (b : Byte) : Djbx33a :=
  ⟨(((x.hash <<< 5) % W64 + x.hash) % W64 + b.val) % W64⟩

/-- `Djbx33a::write`: folds the loop body over the byte slice in order. -/
def Djbx33a.write (x : Djbx33a) (bytes : List Byte) : Djbx33a :=
  bytes.foldl Djbx33a.writeByte x

/-- `Djbx33a::finish`: returns the current state. -/
def Djbx33a.finish (x : Djbx33a) : Nat := x.hash

/-- `src/x33a_u32.rs`: 32-bit multiplicative-additive hasher, `state : u32`. -/
structure X33aU32 where
  hash : Nat

/-- `X33aU32::new`: accumulator seeded with 5381. -/
def X33aU32.new : X33aU32 := ⟨5381⟩

/-- `X33aU32::new_with_salt`: accumulator seeded with a caller-supplied `u32`. -/
def X33aU32.new_with_salt (s : Nat) : X33aU32 := ⟨s⟩

/-- One iteration of the loop body of `X33aU32::write`:
`self.hash = (self.hash << 5).wrapping_add(self.hash).wrapping_add(*byte as u32)`. -/
def X33aU32.writeByte (x : X33aU32) (b : Byte) : X33aU32 :=
  ⟨(((x.hash <<< 5) % W32 + x.hash) % W32 + b.val) % W32⟩

/-- `X33aU32::write`: folds the loop body over the byte slice in order. -/
def X33aU32.write (x : X33aU32) (bytes : List Byte) : X33aU32 :=
  bytes.foldl X33aU32.writeByte x

/-- `X33aU32::finish_u32` (the `HasherU32` impl): returns the native state. -/
def X33aU32.finish_u32 (x : X33aU32) : Nat := x.hash

/-- `X33aU32::finish`: `self.hash as u64`, i.e. the state zero-extended to 64
bits; zero-extension of a 32-bit value preserves its numeric value. -/
def X33aU32.finish (x : X33aU32) : Nat := x.hash

/-- `src/x33a_u32_php.rs`: 32-bit multiplicative-additive hasher with the
high bit forced on output, `state : u32`. -/
structure X33aU32Php where
  hash : Nat

/-- `X33aU32Php::new`: accumulator seeded with 5381. -/
def X33aU32Php.new : X33aU32Php := ⟨5381⟩

/-- `X33aU32Php::new_with_salt`: accumulator seeded with a caller-supplied `u32`. -/
def X33aU32Php.new_with_salt (s : Nat) : X33aU32Php := ⟨s⟩

/-- One iteration of the loop body of `X33aU32Php::write`:
`self.hash = (self.hash << 5).wrapping_add(self.hash).wrapping_add(*byte as u32)`. -/
def X33aU32Php.writeByte (x : X33aU32Php) (b : Byte) : X33aU32Php :=
  ⟨(((x.hash <<< 5) % W32 + x.hash) % W32 + b.val) % W32⟩

/-- `X33aU32Php::write`: folds the loop body over the byte slice in order. -/
def X33aU32Php.write (x : X33aU32Php) (bytes : List Byte) : X33aU32Php :=
  bytes.foldl X33aU32Php.writeByte x

/-- `X33aU32Php::finish_u32`: `self.hash | 0x80000000u32`. -/
def X33aU32Php.finish_u32 (x : X33aU32Php) : Nat := x.hash ||| 0x80000000

/-- `X33aU32Php::finish`: `(self.hash | 0x80000000u32) as u64`; zero-extension
preserves the numeric value. -/
def X33aU32Php.finish (x : X33aU32Php) : Nat := x.hash ||| 0x80000000

/-- `src/x33x.rs`: 64-bit multiplicative-XOR hasher, `state : u64`. -/
structure X33x where
  hash : Nat

/-- `X33x::new`: accumulator seeded with 5381. -/
def X33x.new : X33x := ⟨5381⟩

/-- `X33x::new_with_salt`: accumulator seeded with a caller-supplied `u64`. -/
def X33x.new_with_salt (s : Nat) : X33x := ⟨s⟩

/-- One iteration of the loop body of `X33x::write`:
`self.hash = (self.hash << 5).wrapping_add(self.hash) ^ *byte as u64`. -/
def X33x.writeByte (x : X33x) (b : Byte) : X33x :=
  ⟨(((x.hash <<< 5) % W64 + x.hash) % W64) ^^^ b.val⟩

/-- `X33x::write`: folds the loop body over the byte slice in order. -/
def X33x.write (x : X33x) (bytes : List Byte) : X33x :=
  bytes.foldl X33x.writeByte x

/-- `X33x::finish`: returns the current state. -/
def X33x.finish (x : X33x) : Nat := x.hash

/-- `src/x33x_u32.rs`: 32-bit multiplicative-XOR hasher, `state : u32`. -/
structure X33xU32 where
  hash : Nat

/-- `X33xU32::new`: accumulator seeded with 5381. -/
def X33xU32.new : X33xU32 := ⟨5381⟩

/-- `X33xU32::new_with_salt`: accumulator seeded with a caller-supplied `u32`. -/
def X33xU32.new_with_salt (s : Nat) : X33xU32 := ⟨s⟩

/-- One iteration of the loop body of `X33xU32::write`:
`self.hash = (self.hash << 5).wrapping_add(self.hash) ^ *byte as u32`. -/
def X33xU32.writeByte (x : X33xU32) (b : Byte) : X33xU32 :=
  ⟨(((x.hash <<< 5) % W32 + x.hash) % W32) ^^^ b.val⟩

/-- `X33xU32::write`: folds the loop body over the byte slice in order. -/
def X33xU32.write (x : X33xU32) (bytes : List Byte) : X33xU32 :=
  bytes.foldl X33xU32.writeByte x

/-- `X33xU32::finish_u32`: returns the native state. -/
def X33xU32.finish_u32 (x : X33xU32) : Nat := x.hash

/-- `X33xU32::finish`: `self.hash as u64`; zero-extension preserves the
numeric value. -/
def X33xU32.finish (x : X33xU32) : Nat := x.hash

/-- Reference combine rule from the spec's words: `state*33 + byte`, reduced
modulo the word width `w`. -/
def combineMulRef (w st b : Nat) : Nat := (st * 33 + b) % w

/-- Key arithmetic fact: the wrapping shift-add chain from the source equals
the multiplicative reference combine, at any word width. -/
theorem shiftAdd_eq_mul33 (w h b : Nat) :
    (((h <<< 5) % w + h) % w + b) % w = (h * 33 + b) % w := by
  rw [Nat.shiftLeft_eq, Nat.mod_add_mod, Nat.add_assoc, Nat.mod_add_mod]
  have : h * 2 ^ 5 + (h + b) = h * 33 + b := by ring
  rw [this]

/-- Byte-free form of the same fact, for the bare multiplier stage. -/
theorem shiftAdd_eq_mul33_noByte (w h : Nat) :
    ((h <<< 5) % w + h) % w = h * 33 % w := by
  rw [Nat.shiftLeft_eq, Nat.mod_add_mod]
  have : h * 2 ^ 5 + h = h * 33 := by ring
  rw [this]

/-- The loop body of `X33a::write` computes `state*33 + byte` mod `2^64`. -/
theorem x33a_writeByte_hash (x : X33a) (b : Byte) :
    (x.writeByte b).hash = (x.hash * 33 + b.val) % W64 :=
  shiftAdd_eq_mul33 W64 x.hash b.val

/-- `X33a::write` is the left fold of the `*33 + byte` combine. -/
theorem x33a_write_hash (x : X33a) (s : List Byte) :
    (x.write s).hash = s.foldl (fun st b => (st * 33 + b.val) % W64) x.hash := by
  induction s generalizing x with
  | nil => rfl
  | cons b t ih =>
    show ((x.writeByte b).write t).hash = _
    rw [List.foldl_cons, ih, x33a_writeByte_hash]

/-- The loop body of `Djbx33a::write` computes `state*33 + byte` mod `2^64`. -/
theorem djbx33a_writeByte_hash (x : Djbx33a) (b : Byte) :
    (x.writeByte b).hash = (x.hash * 33 + b.val) % W64 :=
  shiftAdd_eq_mul33 W64 x.hash b.val

/-- `Djbx33a::write` is the left fold of the `*33 + byte` combine. -/
theorem djbx33a_write_hash (x : Djbx33a) (s : List Byte) :
    (x.write s).hash = s.foldl (fun st b => (st * 33 + b.val) % W64) x.hash := by
  induction s generalizing x with
  | nil => rfl
  | cons b t ih =>
    show ((x.writeByte b).write t).hash = _
    rw [List.foldl_cons, ih, djbx33a_writeByte_hash]

/-- The loop body of `X33aU32::write` computes `state*33 + byte` mod `2^32`. -/
theorem x33aU32_writeByte_hash (x : X33aU32) (b : Byte) :
    (x.writeByte b).hash = (x.hash * 33 + b.val) % W32 :=
  shiftAdd_eq_mul33 W32 x.hash b.val

/-- `Djbx33a` simulates `X33a` step by step: equal states stay equal under
feeding the same bytes. -/
theorem Djbx33a.write_hash_eq_x33a (s : List Byte) (a : Djbx33a) (x : X33a)
    (h : a.hash = x.hash) : (a.write s).hash = (x.write s).hash := by
  induction s generalizing a x with
  | nil => exact h
  | cons b t ih =>
    show ((a.writeByte b).write t).hash = ((x.writeByte b).write t).hash
    exact ih _ _ (by simp [Djbx33a.writeByte, X33a.writeByte, h])

/-- `X33aU32Php` keeps the same accumulator as `X33aU32` under feeding: the
high-bit forcing never touches the state. -/
theorem X33aU32Php.write_hash_eq_u32 (s : List Byte) (a : X33aU32Php)
    (x : X33aU32) (h : a.hash = x.hash) : (a.write s).hash = (x.write s).hash := by
  induction s generalizing a x with
  | nil => exact h
  | cons b t ih =>
    show ((a.writeByte b).write t).hash = ((x.writeByte b).write t).hash
    exact ih _ _ (by simp [X33aU32Php.writeByte, X33aU32.writeByte, h])

/-- C1: For the Multiplicative-Additive-64 variant (X33a) and the
Default-Salt-Only-64 variant (Djbx33a), feeding a byte sequence applies
`state = (state*33 + b) mod 2^64` to each byte in order: for every seed `k`
(resp. any reachable Djbx33a accumulator) and every byte sequence `s`, the
state after feeding `s` is the left fold of that combine rule over `s`
starting from the seed. -/
theorem c1_write_is_foldl_mul33 (k : Nat) (s : List Byte) :
    ((X33a.new_with_salt k).write s).hash
      = s.foldl (fun st b => (st * 33 + b.val) % W64) k
    ∧ ∀ y : Djbx33a, (y.write s).hash
      = s.foldl (fun st b => (st * 33 + b.val) % W64) y.hash :=
  ⟨x33a_write_hash _ s, fun y => djbx33a_write_hash y s⟩

/-- C2: At both word widths the wrapping shift-add form
`(state << 5) + state` equals `state*33` modulo `2^width`, and the per-byte
loop bodies of `X33a::write` and `X33aU32::write` therefore equal the
multiplicative reference combine `state*33 + byte` mod `2^width`. All
operations are total: no saturating or panicking arithmetic. -/
theorem c2_shift_add_refines_mul33 (st : Nat) (x : X33a) (y : X33aU32) (c : Byte) :
    ((st <<< 5) % W64 + st) % W64 = st * 33 % W64
    ∧ ((st <<< 5) % W32 + st) % W32 = st * 33 % W32
    ∧ (x.writeByte c).hash = combineMulRef W64 x.hash c.val
    ∧ (y.writeByte c).hash = combineMulRef W32 y.hash c.val :=
  ⟨shiftAdd_eq_mul33_noByte W64 st, shiftAdd_eq_mul33_noByte W32 st,
    x33a_writeByte_hash x c, x33aU32_writeByte_hash y c⟩

/-- C3: For the High-Bit-Forced 32-bit variant (X33aU32Php), for every seed
and byte sequence, `result32()` has bit 31 set (hence is never zero), because
`0x8000_0000` is ORed into the native value on read; and with the default
seed and input `[69,122]`, `result32()` equals `2153345956`. -/
theorem c3_php_high_bit (k : Nat) (s : List Byte) :
    Nat.testBit (((X33aU32Php.new_with_salt k).write s).finish_u32) 31 = true
    ∧ ((X33aU32Php.new_with_salt k).write s).finish_u32 ≠ 0
    ∧ (X33aU32Php.new.write [69, 122]).finish_u32 = 2153345956 := by
  have hb : ∀ n : Nat, Nat.testBit (n ||| 0x80000000) 31 = true := by
    intro n
    rw [Nat.testBit_or]
    have h31 : Nat.testBit 0x80000000 31 = true := by decide
    rw [h31, Bool.or_true]
  refine ⟨hb _, ?_, by decide⟩
  intro h0
  have := hb ((X33aU32Php.new_with_salt k).write s).hash
  rw [show (((X33aU32Php.new_with_salt k).write s).hash ||| 0x80000000)
        = ((X33aU32Php.new_with_salt k).write s).finish_u32 from rfl, h0] at this
  simp [Nat.zero_testBit] at this

/-- C4: For every 32-bit-backed variant, for every seed and byte sequence,
the 64-bit `result()` equals the native `result32()` zero-extended to 64 bits
(zero-extension preserves the numeric value), with high-bit forcing applied
identically in both accessors for X33aU32Php. -/
theorem c4_finish_eq_finish_u32 (k : Nat) (s : List Byte) :
    ((X33aU32.new_with_salt k).write s).finish
      = ((X33aU32.new_with_salt k).write s).finish_u32
    ∧ ((X33aU32Php.new_with_salt k).write s).finish
      = ((X33aU32Php.new_with_salt k).write s).finish_u32
    ∧ ((X33xU32.new_with_salt k).write s).finish
      = ((X33xU32.new_with_salt k).write s).finish_u32 :=
  ⟨rfl, rfl, rfl⟩

/-- C5: For every variant, feeding `s1` then `s2` in two calls yields the
same accumulator as feeding the concatenation `s1 ++ s2` in one call. -/
theorem c5_streaming (s1 s2 : List Byte) :
    (∀ x : X33a, (x.write s1).write s2 = x.write (s1 ++ s2))
    ∧ (∀ x : Djbx33a, (x.write s1).write s2 = x.write (s1 ++ s2))
    ∧ (∀ x : X33aU32, (x.write s1).write s2 = x.write (s1 ++ s2))
    ∧ (∀ x : X33aU32Php, (x.write s1).write s2 = x.write (s1 ++ s2))
    ∧ (∀ x : X33x, (x.write s1).write s2 = x.write (s1 ++ s2))
    ∧ (∀ x : X33xU32, (x.write s1).write s2 = x.write (s1 ++ s2)) := by
  refine ⟨fun x => ?_, fun x => ?_, fun x => ?_, fun x => ?_, fun x => ?_,
    fun x => ?_⟩ <;>
    simp [X33a.write, Djbx33a.write, X33aU32.write, X33aU32Php.write,
      X33x.write, X33xU32.write, List.foldl_append]

/-- C6: Under the default seed 5381, `[69,122]` and `[70,89]` both hash to
`5862308` under X33a, while under X33x they hash to `5861786` and `5861914`
respectively, with no collision. -/
theorem c6_known_values :
    (X33a.new.write [69, 122]).finish = 5862308
    ∧ (X33a.new.write [70, 89]).finish = 5862308
    ∧ (X33x.new.write [69, 122]).finish = 5861786
    ∧ (X33x.new.write [70, 89]).finish = 5861914
    ∧ (X33x.new.write [69, 122]).finish ≠ (X33x.new.write [70, 89]).finish := by
  decide

/-- C7: Under X33a with salt 5387, `[70,89]` hashes to `5868842` and
`[69,122]` also hashes to `5868842`: the additive-family collision persists
under this non-default salt. -/
theorem c7_salt_5387_collision :
    ((X33a.new_with_salt 5387).write [70, 89]).finish = 5868842
    ∧ ((X33a.new_with_salt 5387).write [69, 122]).finish = 5868842 := by
  decide

/-- C8: For every variant and every accumulator state, feeding an empty byte
sequence is a no-op: the accumulator is unchanged and subsequent results are
identical. -/
theorem c8_empty_write_noop :
    (∀ x : X33a, x.write [] = x ∧ (x.write []).finish = x.finish)
    ∧ (∀ x : Djbx33a, x.write [] = x)
    ∧ (∀ x : X33aU32, x.write [] = x)
    ∧ (∀ x : X33aU32Php, x.write [] = x ∧ (x.write []).finish_u32 = x.finish_u32)
    ∧ (∀ x : X33x, x.write [] = x)
    ∧ (∀ x : X33xU32, x.write [] = x) :=
  ⟨fun _ => ⟨rfl, rfl⟩, fun _ => rfl, fun _ => rfl, fun _ => ⟨rfl, rfl⟩,
    fun _ => rfl, fun _ => rfl⟩

/-- C9: Djbx33a is bit-for-bit identical to X33a apart from omitting the salt
constructor: both default-construct with state 5381, and for every byte
sequence fed after default construction the results coincide. -/
theorem c9_djbx33a_eq_x33a (s : List Byte) :
    (Djbx33a.new.write s).finish = (X33a.new.write s).finish
    ∧ Djbx33a.new.hash = 5381 :=
  ⟨Djbx33a.write_hash_eq_x33a s _ _ rfl, rfl⟩

/-- C10: In X33aU32Php the high-bit forcing is applied only at read time,
never folded into the accumulator: for every seed and byte sequence the
accumulator equals X33aU32's, and `result32()` equals X33aU32's `result32()`
ORed with `0x80000000`; reads are pure, so interleaving them with feeds
cannot alter subsequent hash values. -/
theorem c10_php_forcing_read_only (k : Nat) (s : List Byte) :
    ((X33aU32Php.new_with_salt k).write s).hash
      = ((X33aU32.new_with_salt k).write s).hash
    ∧ ((X33aU32Php.new_with_salt k).write s).finish_u32
      = ((X33aU32.new_with_salt k).write s).finish_u32 ||| 0x80000000 := by
  have h := X33aU32Php.write_hash_eq_u32 s (X33aU32Php.new_with_salt k)
    (X33aU32.new_with_salt k) rfl
  exact ⟨h, by simp [X33aU32Php.finish_u32, X33aU32.finish_u32, h]⟩

end DjbHash
